import Mathlib

/-!
Shallow embedding of `src/email_checker.py` (class `EmailValidator`).

External behavior (the `dns.resolver`, `smtplib` and `email_validator`
libraries) is abstracted into an `Env` record of capability flags and
response functions; every function of the source file that the claims
mention is translated below, keeping the source's names.
-/

/-- Python exceptions that the source code catches, with `str(e)` kept as
the `desc` field of each constructor. -/
inductive PyExc where
  | nxdomain (desc : String)
  | noAnswer (desc : String)
  | noNameservers (desc : String)
  | indexError (desc : String)
  | otherExc (desc : String)
deriving DecidableEq

def PyExc.desc : PyExc → String
  | .nxdomain d => d
  | .noAnswer d => d
  | .noNameservers d => d
  | .indexError d => d
  | .otherExc d => d

/-- Result of calling `validate_email` from the `email_validator` library:
a normalized address, an `EmailNotValidError` with a reason, or any other
raised exception. -/
inductive LibResult where
  | ok (normalized : String)
  | notValid (reason : String)
  | raises (e : PyExc)
deriving DecidableEq

/-- The environment of the program: the three optional-capability flags
(`HAS_EMAIL_VALIDATOR`, `HAS_DNS`, `HAS_REQUESTS`) and the observable
behavior of the external libraries.  `resolve d rt` models
`dns.resolver.resolve(d, rt)` (returning the records as strings or raising);
`smtpExchange host email` models the whole SMTP session
connect/HELO/MAIL FROM/RCPT TO/quit against mail host `host`, returning the
RCPT reply `(code, text)` when the session completes, or the exception it
raised. -/
structure Env where
  hasEmailValidator : Bool
  hasDns : Bool
  hasRequests : Bool
  libValidate : String → LibResult
  resolve : String → String → Except PyExc (List String)
  smtpExchange : String → String → Except PyExc (Nat × String)

/-- Python's `str.split(sep)` for a single-character separator, on a list
of characters: `splitOnChar '@' "a@b@c" = ["a","b","c"]`, and a string
without the separator yields the one-element list of itself. -/
def splitOnChar (sep : Char) : List Char → List (List Char)
  | [] => [[]]
  | c :: rest =>
    let r := splitOnChar sep rest
    if c = sep then [] :: r
    else
      match r with
      | p :: ps => (c :: p) :: ps
      | [] => [[c]]

/-- `self.email.split('@')[1]`: the element of index 1 of the split, or the
`IndexError` Python raises when the address has no `@`. -/
def extractDomain (email : String) : Except PyExc (List Char) :=
  match (splitOnChar '@' email.toList)[1]? with
  | some d => .ok d
  | none => .error (.indexError "list index out of range")

/- ------------------------------------------------------------------ -/
/- Regex matchers (validate_basic_regex, validate_rfc5322).            -/
/- ------------------------------------------------------------------ -/

/-- the class `[a-zA-Z0-9._%+-]` of the basic pattern's local part -/
def isLocalChar (c : Char) : Bool :=
  c.isAlpha || c.isDigit || c = '.' || c = '_' || c = '%' || c = '+' || c = '-'

/-- the class `[a-zA-Z0-9.-]` of the basic pattern's domain part -/
def isDomainChar (c : Char) : Bool :=
  c.isAlpha || c.isDigit || c = '.' || c = '-'

/-- `cs` matches the tail `[a-zA-Z0-9.-]+\.[a-zA-Z]\x7b2,\x7d` of the basic
pattern (anchored on both sides): some position `j` holds the literal dot,
a nonempty domain-class run precedes it and at least two letters follow. -/
def matchSeg (cs : List Char) : Bool :=
  (List.range cs.length).any fun j =>
    decide (cs[j]? = some '.') && decide (1 ≤ j) &&
    (cs.take j).all isDomainChar &&
    (cs.drop (j+1)).all Char.isAlpha && decide (2 ≤ cs.length - (j+1))

/-- `cs` (the whole string, both ends anchored) matches the basic pattern
`^[a-zA-Z0-9._%+-]+@[a-zA-Z0-9.-]+\.[a-zA-Z]\x7b2,\x7d$`: some position `i`
holds `@`, a nonempty local-class run precedes it, and the rest matches the
domain-dot-TLD tail. -/
def matchesBasicCore (cs : List Char) : Bool :=
  (List.range cs.length).any fun i =>
    decide (cs[i]? = some '@') && decide (1 ≤ i) &&
    (cs.take i).all isLocalChar && matchSeg (cs.drop (i+1))

/-- `bool(re.match(basic_pattern, s))`.  Python's `$` (without `re.M`)
matches at the end of the string or just before one newline at the end, so
the pattern also accepts a matching string followed by a single `'\n'`. -/
def pyMatchBasic (s : String) : Bool :=
  matchesBasicCore s.toList ||
    (decide (s.toList.getLast? = some '\n') && matchesBasicCore s.toList.dropLast)

/-- `EmailValidator.validate_basic_regex` -/
def validate_basic_regex (email : String) : Option Bool × String :=
  if pyMatchBasic email then (some true, "Valid format")
  else (some false, "Invalid format")

/-- the class of the RFC-5322 pattern's local part:
alphanumerics plus the specials of the source pattern (apostrophe,
backtick, braces and caret written by character code). -/
def isRfcLocalChar (c : Char) : Bool :=
  c.isAlpha || c.isDigit ||
  ['.', '!', '#', '$', '%', '&', Char.ofNat 39, '*', '+', '/', '=', '?',
   Char.ofNat 94, '_', Char.ofNat 96, Char.ofNat 123, '|', Char.ofNat 125,
   Char.ofNat 126, '-'].contains c

def isAlnum (c : Char) : Bool := c.isAlpha || c.isDigit

/-- a domain label of the RFC pattern,
`[a-zA-Z0-9](?:[a-zA-Z0-9-]\x7b0,61\x7d[a-zA-Z0-9])?`:
1 to 63 characters, first and last alphanumeric, hyphens allowed inside. -/
def labelOk : List Char → Bool
  | [] => false
  | [c] => isAlnum c
  | c :: rest =>
    isAlnum c && decide (rest.length ≤ 62) && isAlnum (rest.getLastD ' ') &&
    rest.dropLast.all (fun d => isAlnum d || d = '-')

/-- `cs` matches the source's RFC-5322-derived pattern (both ends
anchored): a nonempty run of RFC local characters, `@`, then dot-separated
labels each matching `labelOk`.  (Labels contain no dot, so the regex's
label decomposition of the domain is exactly the split on dots.) -/
def matchesRfcCore (cs : List Char) : Bool :=
  (List.range cs.length).any fun i =>
    decide (cs[i]? = some '@') && decide (1 ≤ i) &&
    (cs.take i).all isRfcLocalChar &&
    (splitOnChar '.' (cs.drop (i+1))).all labelOk

/-- `bool(re.match(rfc5322_pattern, s))`, with the same trailing-newline
behavior of Python's `$` as in `pyMatchBasic`. -/
def pyMatchRfc (s : String) : Bool :=
  matchesRfcCore s.toList ||
    (decide (s.toList.getLast? = some '\n') && matchesRfcCore s.toList.dropLast)

/-- `EmailValidator.validate_rfc5322` -/
def validate_rfc5322 (email : String) : Option Bool × String :=
  if pyMatchRfc email then (some true, "RFC 5322 compliant")
  else (some false, "Not RFC 5322 compliant")

/- ------------------------------------------------------------------ -/
/- Library, DNS and SMTP checks.                                       -/
/- ------------------------------------------------------------------ -/

/-- `EmailValidator.validate_with_library`: skips without the library,
catches only `EmailNotValidError`; any other exception of `validate_email`
escapes to the pipeline layer (hence the `Except` result). -/
def validate_with_library (env : Env) (email : String) :
    Except PyExc (Option Bool × String) :=
  if env.hasEmailValidator = false then
    .ok (none, "email-validator library not installed")
  else
    match env.libValidate email with
    | .ok n => .ok (some true, "Valid (normalized: " ++ n ++ ")")
    | .notValid r => .ok (some false, "Invalid: " ++ r)
    | .raises e => .error e

/-- the messages of `check_dns_mx`'s `except` clauses, one per cause -/
def mxErrMsg : PyExc → String
  | .nxdomain _ => "Domain does not exist"
  | .noAnswer _ => "No MX records found"
  | .noNameservers _ => "No nameservers available"
  | .indexError _ => "Invalid email format (no @ symbol)"
  | .otherExc d => "DNS error: " ++ d

/-- `EmailValidator.check_dns_mx`: skip without dnspython; otherwise the
`try` block extracts the domain and resolves MX records, and each failure
cause gets its own handler (`mxErrMsg`). -/
def check_dns_mx (env : Env) (email : String) : Option Bool × String :=
  if env.hasDns = false then (none, "dnspython library not installed")
  else
    match extractDomain email with
    | .error e => (some false, mxErrMsg e)
    | .ok dcs =>
      match env.resolve (String.mk dcs) "MX" with
      | .ok recs =>
        (some true, "Found " ++ toString recs.length ++ " MX record(s): " ++
          String.intercalate ", " (recs.take 3))
      | .error e => (some false, mxErrMsg e)

/-- `EmailValidator.check_dns_a`: skip without dnspython; otherwise a
single blanket `except Exception` turns every failure (including the
missing-`@` `IndexError`) into one wrapper message around `str(e)`. -/
def check_dns_a (env : Env) (email : String) : Option Bool × String :=
  if env.hasDns = false then (none, "dnspython library not installed")
  else
    match extractDomain email with
    | .error e => (some false, "No A records found: " ++ e.desc)
    | .ok dcs =>
      match env.resolve (String.mk dcs) "A" with
      | .ok recs =>
        (some true, "Found " ++ toString recs.length ++ " A record(s): " ++
          String.intercalate ", " (recs.take 3))
      | .error e => (some false, "No A records found: " ++ e.desc)

/-- the body of `verify_smtp`'s `try` block: extract the domain, resolve
its MX records, take `mx_records[0]` (an `IndexError` when empty), then run
the SMTP session; the result is the RCPT reply or the first exception. -/
def smtpRun (env : Env) (email : String) : Except PyExc (Nat × String) :=
  match extractDomain email with
  | .error e => .error e
  | .ok dcs =>
    match env.resolve (String.mk dcs) "MX" with
    | .error e => .error e
    | .ok recs =>
      match recs[0]? with
      | none => .error (.indexError "list index out of range")
      | some mxHost => env.smtpExchange mxHost email

/-- `EmailValidator.verify_smtp`: skip without dnspython; classify the
RCPT reply code 250/251/other; a blanket `except Exception` wraps any
exception of the whole block into one failure message. -/
def verify_smtp (env : Env) (email : String) : Option Bool × String :=
  if env.hasDns = false then (none, "dnspython library required for SMTP check")
  else
    match smtpRun env email with
    | .error e => (some false, "SMTP verification failed: " ++ e.desc)
    | .ok (code, text) =>
      if code = 250 then
        (some true, "Mailbox verified (code " ++ toString code ++ ")")
      else if code = 251 then
        (some true, "User not local, will forward (code " ++ toString code ++ ")")
      else
        (some false, "Verification failed (code " ++ toString code ++ "): " ++ text)

/- ------------------------------------------------------------------ -/
/- Pipeline (run_all_validations) and summary (print_summary).         -/
/- ------------------------------------------------------------------ -/

/-- the six check names of the `tests` list of `run_all_validations`,
in source order -/
inductive CheckName where
  | BasicRegex
  | RFC5322
  | LibraryValidation
  | DnsMxRecords
  | DnsARecords
  | SmtpVerification
deriving DecidableEq

/-- the display string of each check, as in the source's `tests` list -/
def CheckName.display : CheckName → String
  | .BasicRegex => "Basic Regex"
  | .RFC5322 => "RFC 5322"
  | .LibraryValidation => "Email Validator Library"
  | .DnsMxRecords => "DNS MX Records"
  | .DnsARecords => "DNS A Records"
  | .SmtpVerification => "SMTP Verification"

/-- the fixed order of the `tests` list -/
def checkOrder : List CheckName :=
  [.BasicRegex, .RFC5322, .LibraryValidation,
   .DnsMxRecords, .DnsARecords, .SmtpVerification]

/-- the check function each name is paired with in the `tests` list; the
checks that convert every exception themselves always return `.ok`. -/
def checkFor (env : Env) (email : String) :
    CheckName → Except PyExc (Option Bool × String)
  | .BasicRegex => .ok (validate_basic_regex email)
  | .RFC5322 => .ok (validate_rfc5322 email)
  | .LibraryValidation => validate_with_library env email
  | .DnsMxRecords => .ok (check_dns_mx env email)
  | .DnsARecords => .ok (check_dns_a env email)
  | .SmtpVerification => .ok (verify_smtp env email)

/-- one entry of `self.results`: name, tri-state `valid`
(`some true` / `some false` / `none` = skipped) and message
(the measured `time` field carries no logic and is omitted) -/
structure ReportEntry where
  name : CheckName
  valid : Option Bool
  message : String
deriving DecidableEq

/-- the pipeline's `try`/`except` around one check call: a value returned
by the check is stored as-is, an exception becomes a failed outcome with
the generic message `"Error: " ++ str(e)`. -/
def runCheck : Except PyExc (Option Bool × String) → Option Bool × String
  | .ok r => r
  | .error e => (some false, "Error: " ++ e.desc)

/-- `EmailValidator.run_all_validations`: run the six checks of `tests` in
order, each under the pipeline's `try`/`except`, accumulating `self.results`
in insertion order. -/
def run_all_validations (env : Env) (email : String) : List ReportEntry :=
  checkOrder.map fun n =>
    { name := n
      valid := (runCheck (checkFor env email n)).1
      message := (runCheck (checkFor env email n)).2 }

/-- `print_summary`'s `passed` count: entries with `valid is True` -/
def countPassed (rs : List ReportEntry) : Nat :=
  (rs.filter fun r => decide (r.valid = some true)).length

/-- `print_summary`'s `failed` count: entries with `valid is False` -/
def countFailed (rs : List ReportEntry) : Nat :=
  (rs.filter fun r => decide (r.valid = some false)).length

/-- `print_summary`'s `skipped` count: entries with `valid is None` -/
def countSkipped (rs : List ReportEntry) : Nat :=
  (rs.filter fun r => decide (r.valid = none)).length

/-- the three verdict tiers printed by `print_summary` -/
inductive Verdict where
  | validAndSecure
  | mayBeValid
  | likelyInvalid
deriving DecidableEq

/-- the verdict branch of `print_summary`: a function of the `passed` and
`failed` counts only. -/
def overallVerdict (passed failed : Nat) : Verdict :=
  if 4 ≤ passed ∧ failed = 0 then .validAndSecure
  else if 2 ≤ passed ∧ failed ≤ 2 then .mayBeValid
  else .likelyInvalid

/- ------------------------------------------------------------------ -/
/- Spec-side definitions, used to compare code behavior with the       -/
/- spec's words where a claim calls for it.                            -/
/- ------------------------------------------------------------------ -/

/-- Spec's words (§3, claim about the domain): the entire substring after
the FIRST `@` from the left. -/
def domainAfterFirstAt (s : String) : List Char :=
  (s.toList.dropWhile fun c => !decide (c = '@')).tail

/-- Spec's words (claim C9): the string decomposes as
local-part `@` domain `.` TLD with the stated character classes, a
nonempty local part, a nonempty domain prefix and a TLD of at least two
letters. -/
def BasicSpecList (cs : List Char) : Prop :=
  ∃ l d t : List Char,
    cs = l ++ '@' :: (d ++ '.' :: t) ∧
    l ≠ [] ∧ l.all isLocalChar = true ∧
    d ≠ [] ∧ d.all isDomainChar = true ∧
    2 ≤ t.length ∧ t.all Char.isAlpha = true

/- ------------------------------------------------------------------ -/
/- Concrete environments used to instantiate the theorems below.       -/
/- ------------------------------------------------------------------ -/

/-- an environment whose `validate_email` raises an exception the library
check does not catch itself -/
def envLibRaises : Env where
  hasEmailValidator := true
  hasDns := false
  hasRequests := false
  libValidate := fun _ => .raises (.otherExc "boom")
  resolve := fun _ _ => .error (.otherExc "down")
  smtpExchange := fun _ _ => .error (.otherExc "down")

/-- an environment whose resolver fails with NXDOMAIN for domain `x` and
with no-answer for every other domain, with the same exception text -/
def envDnsCauses : Env where
  hasEmailValidator := false
  hasDns := true
  hasRequests := false
  libValidate := fun _ => .notValid "unused"
  resolve := fun d _ =>
    if d = "x" then .error (.nxdomain "err") else .error (.noAnswer "err")
  smtpExchange := fun _ _ => .error (.otherExc "down")

/-- an environment whose resolver returns one MX host and whose SMTP
session completes with RCPT reply 250 -/
def envSmtpOk : Env where
  hasEmailValidator := false
  hasDns := true
  hasRequests := false
  libValidate := fun _ => .notValid "unused"
  resolve := fun _ _ => .ok ["mx.example.com."]
  smtpExchange := fun _ _ => .ok (250, "OK")

/-- an environment without the dnspython capability -/
def envNoDns : Env where
  hasEmailValidator := true
  hasDns := false
  hasRequests := false
  libValidate := fun _ => .ok "user@example.com"
  resolve := fun _ _ => .error (.otherExc "unused")
  smtpExchange := fun _ _ => .error (.otherExc "unused")

/- ------------------------------------------------------------------ -/
/- Helper lemmas.                                                      -/
/- ------------------------------------------------------------------ -/

/-- the three summary counts partition any report list -/
theorem counts_partition (rs : List ReportEntry) :
    countPassed rs + countFailed rs + countSkipped rs = rs.length := by
  induction rs with
  | nil => rfl
  | cons r rest ih =>
    unfold countPassed countFailed countSkipped at *
    rcases h : r.valid with _ | b
    · simp [List.filter, h]; omega
    · cases b <;> simp [List.filter, h] <;> omega

/-- a pipeline run always yields a six-entry report -/
theorem report_length (env : Env) (email : String) :
    (run_all_validations env email).length = 6 := by
  simp [run_all_validations, checkOrder]

/-- unfolding equation of `extractDomain` -/
theorem extractDomain_eq (email : String) :
    extractDomain email =
      match (splitOnChar '@' email.toList)[1]? with
      | some d => .ok d
      | none => .error (.indexError "list index out of range") := rfl

theorem splitOnChar_ne_nil (sep : Char) (cs : List Char) : splitOnChar sep cs ≠ [] := by
  cases cs with
  | nil => simp [splitOnChar]
  | cons c rest =>
    simp only [splitOnChar]
    split
    · simp
    · split <;> simp

/-- a list without the separator splits into the one-element list of itself -/
theorem splitOnChar_no_sep (sep : Char) :
    ∀ cs : List Char, cs.count sep = 0 → splitOnChar sep cs = [cs]
  | [], _ => rfl
  | c :: rest, h => by
    have hc : ¬ c = sep := by
      intro hceq
      subst hceq
      rw [List.count_cons_self] at h
      omega
    have hr : rest.count sep = 0 := by
      rwa [List.count_cons_of_ne (fun hx => hc hx.symm)] at h
    simp [splitOnChar, hc, splitOnChar_no_sep sep rest hr]

/-- with exactly one separator occurrence, element 1 of the split is the
suffix after that occurrence -/
theorem splitOnChar_get1 (sep : Char) :
    ∀ cs : List Char, cs.count sep = 1 →
      (splitOnChar sep cs)[1]? =
        some ((cs.dropWhile fun c => !decide (c = sep)).tail)
  | [], h => by simp at h
  | c :: rest, h => by
    by_cases hc : c = sep
    · subst hc
      have hr : rest.count c = 0 := by
        rw [List.count_cons_self] at h
        omega
      simp [splitOnChar, splitOnChar_no_sep c rest hr, List.dropWhile]
    · have hr : rest.count sep = 1 := by
        rwa [List.count_cons_of_ne (fun hx => hc hx.symm)] at h
      have ihr := splitOnChar_get1 sep rest hr
      rcases hsp : splitOnChar sep rest with _ | ⟨p, ps⟩
      · exact absurd hsp (splitOnChar_ne_nil sep rest)
      · rw [hsp] at ihr
        simp only [splitOnChar, hc, if_false, hsp, List.dropWhile]
        simpa using ihr

/-- the tail matcher of the basic pattern accepts exactly the
domain-dot-TLD decompositions -/
theorem matchSeg_iff (cs : List Char) :
    matchSeg cs = true ↔
      ∃ d t : List Char, cs = d ++ '.' :: t ∧ d ≠ [] ∧ d.all isDomainChar = true ∧
        t.all Char.isAlpha = true ∧ 2 ≤ t.length := by
  constructor
  · intro h
    simp only [matchSeg, List.any_eq_true, List.mem_range] at h
    obtain ⟨j, hj, hcond⟩ := h
    simp only [Bool.and_eq_true, decide_eq_true_eq] at hcond
    obtain ⟨⟨⟨⟨hdot, hj1⟩, hdom⟩, halpha⟩, hlen⟩ := hcond
    refine ⟨cs.take j, cs.drop (j+1), ?_, ?_, hdom, halpha, ?_⟩
    · have hget : cs[j] = '.' := by
        rw [List.getElem?_eq_getElem hj] at hdot
        exact Option.some.inj hdot
      conv_lhs => rw [← List.take_append_drop j cs]
      rw [← List.getElem_cons_drop cs j hj, hget]
    · intro hnil
      have hlt : (cs.take j).length = j := by
        rw [List.length_take]; omega
      rw [hnil] at hlt
      simp at hlt
      omega
    · rw [List.length_drop]
      omega
  · rintro ⟨d, t, rfl, hd, hdom, halpha, hlen⟩
    simp only [matchSeg, List.any_eq_true, List.mem_range]
    refine ⟨d.length, ?_, ?_⟩
    · simp only [List.length_append, List.length_cons]
      omega
    · simp only [Bool.and_eq_true, decide_eq_true_eq]
      have hget : (d ++ '.' :: t)[d.length]? = some '.' := by
        rw [List.getElem?_append_right (le_refl d.length)]
        simp
      have htake : (d ++ '.' :: t).take d.length = d := List.take_left d ('.' :: t)
      have hdrop : (d ++ '.' :: t).drop (d.length + 1) = t := by
        have hsplit : d ++ '.' :: t = (d ++ ['.']) ++ t := by simp
        have hlen2 : (d ++ ['.']).length = d.length + 1 := by simp
        rw [hsplit, ← hlen2]
        exact List.drop_left _ _
      refine ⟨⟨⟨⟨hget, ?_⟩, ?_⟩, ?_⟩, ?_⟩
      · cases d with
        | nil => exact absurd rfl hd
        | cons a b => simp
      · rw [htake]; exact hdom
      · rw [hdrop]; exact halpha
      · simp only [List.length_append, List.length_cons]
        omega

/-- the whole basic matcher accepts exactly the decompositions described
by the spec's words (`BasicSpecList`) -/
theorem matchesBasicCore_iff (cs : List Char) :
    matchesBasicCore cs = true ↔ BasicSpecList cs := by
  constructor
  · intro h
    simp only [matchesBasicCore, List.any_eq_true, List.mem_range] at h
    obtain ⟨i, hi, hcond⟩ := h
    simp only [Bool.and_eq_true, decide_eq_true_eq] at hcond
    obtain ⟨⟨⟨hat, hi1⟩, hloc⟩, hseg⟩ := hcond
    obtain ⟨d, t, hdt, hd, hdom, halpha, hlen⟩ := (matchSeg_iff _).mp hseg
    refine ⟨cs.take i, d, t, ?_, ?_, hloc, hd, hdom, hlen, halpha⟩
    · have hget : cs[i] = '@' := by
        rw [List.getElem?_eq_getElem hi] at hat
        exact Option.some.inj hat
      conv_lhs => rw [← List.take_append_drop i cs]
      rw [← List.getElem_cons_drop cs i hi, hget, hdt]
    · intro hnil
      have hlt : (cs.take i).length = i := by
        rw [List.length_take]; omega
      rw [hnil] at hlt
      simp at hlt
      omega
  · rintro ⟨l, d, t, rfl, hl, hloc, hd, hdom, hlen, halpha⟩
    simp only [matchesBasicCore, List.any_eq_true, List.mem_range]
    refine ⟨l.length, ?_, ?_⟩
    · simp only [List.length_append, List.length_cons]
      omega
    · simp only [Bool.and_eq_true, decide_eq_true_eq]
      have hdrop : (l ++ '@' :: (d ++ '.' :: t)).drop (l.length + 1) = d ++ '.' :: t := by
        have hsplit : l ++ '@' :: (d ++ '.' :: t) = (l ++ ['@']) ++ (d ++ '.' :: t) := by simp
        have hlen2 : (l ++ ['@']).length = l.length + 1 := by simp
        rw [hsplit, ← hlen2]
        exact List.drop_left _ _
      refine ⟨⟨⟨?_, ?_⟩, ?_⟩, ?_⟩
      · rw [List.getElem?_append_right (le_refl l.length)]
        simp
      · cases l with
        | nil => exact absurd rfl hl
        | cons a b => simp
      · rw [List.take_left]
        exact hloc
      · rw [hdrop]
        exact (matchSeg_iff _).mpr ⟨d, t, rfl, hd, hdom, halpha, hlen⟩

/- ------------------------------------------------------------------ -/
/- Claim theorems.                                                     -/
/- ------------------------------------------------------------------ -/

/-- C1: for every environment and input address, the validation pipeline
produces exactly 6 outcomes, one per enumerated check name, in the fixed
order BasicRegex, RFC5322, LibraryValidation, DnsMxRecords, DnsARecords,
SmtpVerification. -/
theorem C1_pipeline_six_outcomes_in_order (env : Env) (email : String) :
    (run_all_validations env email).map ReportEntry.name =
      [.BasicRegex, .RFC5322, .LibraryValidation,
       .DnsMxRecords, .DnsARecords, .SmtpVerification] ∧
    (run_all_validations env email).length = 6 := by
  constructor
  · rfl
  · simp [run_all_validations, checkOrder]

/-- C2: for every completed run, the summary's passed, failed and skipped
counts partition the outcomes by tri-state value, so they sum to the number
of report entries, which is always 6. -/
theorem C2_counts_partition_sum_six (env : Env) (email : String) :
    countPassed (run_all_validations env email) +
      countFailed (run_all_validations env email) +
      countSkipped (run_all_validations env email) =
      (run_all_validations env email).length ∧
    countPassed (run_all_validations env email) +
      countFailed (run_all_validations env email) +
      countSkipped (run_all_validations env email) = 6 := by
  refine ⟨counts_partition _, ?_⟩
  rw [counts_partition, report_length]

/-- C3: the final verdict is a function of the passed/failed counts alone,
with exactly the claimed thresholds (first tier iff `passed ≥ 4` and
`failed = 0`; second tier iff not the first and `passed ≥ 2`, `failed ≤ 2`;
third tier otherwise), including the three claimed boundary cases. -/
theorem C3_verdict_thresholds (p f : Nat) :
    (overallVerdict p f = .validAndSecure ↔ 4 ≤ p ∧ f = 0) ∧
    (overallVerdict p f = .mayBeValid ↔ ¬(4 ≤ p ∧ f = 0) ∧ 2 ≤ p ∧ f ≤ 2) ∧
    (overallVerdict p f = .likelyInvalid ↔ ¬(4 ≤ p ∧ f = 0) ∧ ¬(2 ≤ p ∧ f ≤ 2)) ∧
    overallVerdict 4 0 = .validAndSecure ∧
    overallVerdict 4 1 = .mayBeValid ∧
    overallVerdict 1 5 = .likelyInvalid := by
  refine ⟨?_, ?_, ?_, by decide, by decide, by decide⟩ <;>
    unfold overallVerdict <;> split <;> rename_i h1 <;>
    first
    | (simp_all; done)
    | (split <;> rename_i h2 <;> simp_all)

/-- C4: an exception a check does not convert itself is caught at the
pipeline layer: the report still contains exactly one outcome for that
check, a `Valid=false` entry with the generic unexpected-error message
`"Error: " ++ str(e)`; the run always completes (`run_all_validations` is a
total function). -/
theorem C4_pipeline_catches_check_exception (env : Env) (email : String)
    (n : CheckName) (exc : PyExc) (h : checkFor env email n = .error exc) :
    (run_all_validations env email).filter (fun r => decide (r.name = n)) =
      [{ name := n, valid := some false, message := "Error: " ++ exc.desc }] := by
  cases n <;> simp_all [run_all_validations, checkOrder, checkFor, runCheck]

/-- C4 witness: a concrete environment whose library check raises; the
pipeline converts it into the single generic failure outcome. -/
theorem C4_witness :
    checkFor envLibRaises "x@y" .LibraryValidation = .error (.otherExc "boom") ∧
    (run_all_validations envLibRaises "x@y").filter
        (fun r => decide (r.name = .LibraryValidation)) =
      [{ name := .LibraryValidation, valid := some false,
         message := "Error: boom" }] := by
  refine ⟨rfl, ?_⟩
  exact C4_pipeline_catches_check_exception envLibRaises "x@y"
    .LibraryValidation (.otherExc "boom") rfl

/-- C5 counterexample: the A-record check does NOT classify failures by
cause with distinct messages — NXDOMAIN for domain `x` and no-answer for
domain `y` (different causes) produce the identical message, and the
NXDOMAIN failure is not reported as "Domain does not exist". -/
theorem C5_counterexample :
    envDnsCauses.resolve "x" "A" = .error (.nxdomain "err") ∧
    envDnsCauses.resolve "y" "A" = .error (.noAnswer "err") ∧
    (PyExc.nxdomain "err") ≠ (PyExc.noAnswer "err") ∧
    check_dns_a envDnsCauses "u@x" = (some false, "No A records found: err") ∧
    check_dns_a envDnsCauses "u@y" = (some false, "No A records found: err") ∧
    ("No A records found: err" : String) ≠ "Domain does not exist" :=
  ⟨rfl, rfl, by decide, rfl, rfl, by decide⟩

/-- C5 amended: only the MX-record check classifies every resolution
failure by cause, with the five distinct messages of the source's handlers
(`mxErrMsg`); the A-record check wraps every failure — including the
missing-`@` case — uniformly as `"No A records found: " ++ str(e)`. -/
theorem C5_amended_failure_classification (env : Env) (email : String)
    (exc : PyExc) (dcs : List Char) (h : env.hasDns = true) :
    (extractDomain email = .error exc →
      check_dns_mx env email = (some false, mxErrMsg exc) ∧
      check_dns_a env email = (some false, "No A records found: " ++ exc.desc)) ∧
    (extractDomain email = .ok dcs → env.resolve (String.mk dcs) "MX" = .error exc →
      check_dns_mx env email = (some false, mxErrMsg exc)) ∧
    (extractDomain email = .ok dcs → env.resolve (String.mk dcs) "A" = .error exc →
      check_dns_a env email = (some false, "No A records found: " ++ exc.desc)) ∧
    (mxErrMsg (.nxdomain "") = "Domain does not exist" ∧
     mxErrMsg (.noAnswer "") = "No MX records found" ∧
     mxErrMsg (.noNameservers "") = "No nameservers available" ∧
     mxErrMsg (.indexError "") = "Invalid email format (no @ symbol)" ∧
     ∀ d, mxErrMsg (.otherExc d) = "DNS error: " ++ d) ∧
    List.Pairwise (fun a b => a ≠ b)
      ["Domain does not exist", "No MX records found", "No nameservers available",
       "Invalid email format (no @ symbol)"] := by
  refine ⟨fun he => ?_, fun hd hr => ?_, fun hd hr => ?_,
    ⟨rfl, rfl, rfl, rfl, fun d => rfl⟩, by decide⟩
  · have hform : exc = .indexError "list index out of range" := by
      rw [extractDomain_eq] at he
      rcases hsp : (splitOnChar '@' email.toList)[1]? with _ | d <;>
        rw [hsp] at he <;> simp at he
      exact he.symm
    subst hform
    constructor <;> simp [check_dns_mx, check_dns_a, h, he, mxErrMsg, PyExc.desc]
  · simp [check_dns_mx, h, hd, hr]
  · simp [check_dns_a, h, hd, hr]

/-- C5 witness: with the concrete NXDOMAIN environment, the MX check
reports the classified message. -/
theorem C5_witness :
    envDnsCauses.hasDns = true ∧
    check_dns_mx envDnsCauses "u@x" = (some false, "Domain does not exist") := by
  refine ⟨rfl, ?_⟩
  exact (C5_amended_failure_classification envDnsCauses "u@x"
    (.nxdomain "err") "x".toList rfl).2.1 rfl rfl

/-- C6: the SMTP probe classifies the RCPT reply code — 250 verified, 251
user-not-local-will-forward (both `Valid=true`), any other code
`Valid=false` with the code and server text — and any exception of the
exchange becomes `Valid=false` with the exception's description; the
result is always a returned outcome, never a propagated error. -/
theorem C6_smtp_reply_classification (env : Env) (email : String)
    (h : env.hasDns = true) :
    (∀ text, smtpRun env email = .ok (250, text) →
      verify_smtp env email = (some true, "Mailbox verified (code 250)")) ∧
    (∀ text, smtpRun env email = .ok (251, text) →
      verify_smtp env email = (some true, "User not local, will forward (code 251)")) ∧
    (∀ code text, smtpRun env email = .ok (code, text) → code ≠ 250 → code ≠ 251 →
      verify_smtp env email =
        (some false, "Verification failed (code " ++ toString code ++ "): " ++ text)) ∧
    (∀ exc, smtpRun env email = .error exc →
      verify_smtp env email = (some false, "SMTP verification failed: " ++ exc.desc)) := by
  refine ⟨fun text hs => ?_, fun text hs => ?_,
    fun code text hs h250 h251 => ?_, fun exc hs => ?_⟩ <;>
    simp [verify_smtp, h, hs] <;> first | rfl | simp [h250, h251]

/-- C6 witness: an environment whose SMTP session answers 250 yields the
mailbox-verified outcome. -/
theorem C6_witness :
    smtpRun envSmtpOk "user@example.com" = .ok (250, "OK") ∧
    verify_smtp envSmtpOk "user@example.com" =
      (some true, "Mailbox verified (code 250)") := by
  refine ⟨rfl, ?_⟩
  exact (C6_smtp_reply_classification envSmtpOk "user@example.com" rfl).1 "OK" rfl

/-- C7: without the DNS capability, the DnsMxRecords, DnsARecords and
SmtpVerification checks all report Skipped (`none`, never `Valid=false`),
so the passed and failed counts of the full report equal those of its
first three (syntax) entries alone. -/
theorem C7_missing_dns_capability_skips (env : Env) (email : String)
    (h : env.hasDns = false) :
    (check_dns_mx env email).1 = none ∧
    (check_dns_a env email).1 = none ∧
    (verify_smtp env email).1 = none ∧
    countPassed (run_all_validations env email) =
      countPassed ((run_all_validations env email).take 3) ∧
    countFailed (run_all_validations env email) =
      countFailed ((run_all_validations env email).take 3) := by
  refine ⟨?_, ?_, ?_, ?_, ?_⟩ <;>
    simp [run_all_validations, checkOrder, checkFor, runCheck, check_dns_mx,
      check_dns_a, verify_smtp, countPassed, countFailed, h, List.filter]

/-- C7 witness: the concrete DNS-less environment skips all three
network checks. -/
theorem C7_witness :
    envNoDns.hasDns = false ∧
    (check_dns_mx envNoDns "user@example.com").1 = none ∧
    (check_dns_a envNoDns "user@example.com").1 = none ∧
    (verify_smtp envNoDns "user@example.com").1 = none := by
  have h := C7_missing_dns_capability_skips envNoDns "user@example.com" rfl
  exact ⟨rfl, h.1, h.2.1, h.2.2.1⟩

/-- C8 counterexample: the domain the checks use is `split('@')[1]`, the
segment between the first and the second `@` — for `"a@b@c"` that is `"b"`,
not the entire substring `"b@c"` after the first `@`. -/
theorem C8_counterexample :
    extractDomain "a@b@c" = .ok "b".toList ∧
    domainAfterFirstAt "a@b@c" = "b@c".toList ∧
    "b".toList ≠ "b@c".toList :=
  ⟨rfl, rfl, by decide⟩

/-- C8 amended: for every email string containing exactly ONE `@`, the
domain used by the domain-dependent checks (`extractDomain`, called by the
DNS MX, DNS A and SMTP checks) is the entire substring after that `@`;
with several `@` the code instead uses the segment between the first and
second `@`. -/
theorem C8_amended_domain_extraction (e : String)
    (h : e.toList.count '@' = 1) :
    extractDomain e = .ok (domainAfterFirstAt e) := by
  unfold extractDomain domainAfterFirstAt
  rw [splitOnChar_get1 '@' e.toList h]

/-- C8 witness: a one-`@` address, where the extracted domain is the whole
suffix after the `@`. -/
theorem C8_witness :
    "user@example.com".toList.count '@' = 1 ∧
    extractDomain "user@example.com" =
      .ok (domainAfterFirstAt "user@example.com") :=
  ⟨by decide, C8_amended_domain_extraction "user@example.com" (by decide)⟩

/-- C9 counterexample: the basic check also accepts a matching string
followed by one trailing newline (Python's `$`), so it does not accept
EXACTLY the strings of the claimed form: `"a@b.co\n"` is accepted although
it admits no local`@`domain`.`TLD decomposition over the claimed character
classes. -/
theorem C9_counterexample :
    validate_basic_regex "a@b.co\n" = (some true, "Valid format") ∧
    ¬ BasicSpecList "a@b.co\n".toList := by
  constructor
  · decide
  · intro hb
    have hmb := (matchesBasicCore_iff "a@b.co\n".toList).mpr hb
    exact absurd hmb (by decide)

/-- C9 amended: the basic check never returns Skipped, and returns
`Valid=true` exactly for the strings of the claimed anchored form
local-part`@`domain`.`TLD over the claimed character classes
(`BasicSpecList`), or such a string followed by one trailing newline
(Python's `$` also matches just before a final newline). -/
theorem C9_amended_basic_regex_characterization (s : String) :
    (validate_basic_regex s).1 = some (pyMatchBasic s) ∧
    ((validate_basic_regex s).1 = some true ↔
      (BasicSpecList s.toList ∨
        (s.toList.getLast? = some '\n' ∧ BasicSpecList s.toList.dropLast))) := by
  constructor
  · unfold validate_basic_regex
    split <;> simp_all
  · unfold validate_basic_regex
    split <;> rename_i hm
    · unfold pyMatchBasic at hm
      simp only [Bool.or_eq_true, Bool.and_eq_true, decide_eq_true_eq] at hm
      rcases hm with h1 | ⟨h2, h3⟩
      · exact iff_of_true rfl (Or.inl ((matchesBasicCore_iff _).mp h1))
      · exact iff_of_true rfl (Or.inr ⟨h2, (matchesBasicCore_iff _).mp h3⟩)
    · refine iff_of_false (by simp) ?_
      intro hr
      apply hm
      unfold pyMatchBasic
      simp only [Bool.or_eq_true, Bool.and_eq_true, decide_eq_true_eq]
      rcases hr with h1 | ⟨h2, h3⟩
      · exact Or.inl ((matchesBasicCore_iff _).mpr h1)
      · exact Or.inr ⟨h2, (matchesBasicCore_iff _).mpr h3⟩

/-- C10: some string — `"a@b"`, whose domain is a single label without a
dot — is accepted by the strict RFC-5322 check but rejected by the basic
check, so the strict language is not contained in the basic one. -/
theorem C10_rfc_not_subset_of_basic :
    ∃ s : String, (validate_rfc5322 s).1 = some true ∧
      (validate_basic_regex s).1 = some false :=
  ⟨"a@b", by decide, by decide⟩
